import Mathlib

/-!
Verification of the hardwayhome run tracker core.

The embedding models times as rational epoch milliseconds and coordinates as
rationals.  The haversine great-circle distance is transcendental, so every
derivation function is parametrised by an abstract distance function Hav
with the same signature as the source haversineMetres(lat1, lng1, lat2, lng2);
all structural theorems hold for every such function, in particular for the
real haversine.
-/

/-- Abstract great-circle distance: lat1 lng1 lat2 lng2 to metres. -/
abbrev Hav := ℚ → ℚ → ℚ → ℚ → ℚ

/-- One GPS fix row (trackpoints table).  created_at is epoch milliseconds. -/
structure Trackpoint where
  created_at : ℚ
  lat : ℚ
  lng : ℚ
  speed : Option ℚ
  err : Option ℚ
deriving DecidableEq

/-- One heart-rate reading row (pulses table). -/
structure Pulse where
  created_at : ℚ
  bpm : ℚ
deriving DecidableEq

/-- GPS accuracy threshold in metres (trackpointFilter.ts). -/
def GPS_ERR_THRESHOLD : ℚ := 20

/-- Maximum plausible speed in metres per second (trackpointFilter.ts). -/
def MAX_SPEED_MS : ℚ := 14

/-- Stage-1 accuracy gate of filterReliableTrackpoints: the source skips a
point when err is null or at least the threshold, so a point passes exactly
when its error is present and below the threshold. -/
def accuracyOk (tp : Trackpoint) : Bool :=
  match tp.err with
  | none => false
  | some e => decide (e < GPS_ERR_THRESHOLD)

/-- Stage-2 speed gate of filterReliableTrackpoints against the last accepted
point: the source skips the candidate when dt is positive and the implied
speed dist / dt exceeds MAX_SPEED_MS. -/
def speedOk (hav : Hav) (prev tp : Trackpoint) : Bool :=
  let dist := hav prev.lat prev.lng tp.lat tp.lng
  let dt := (tp.created_at - prev.created_at) / 1000
  !(decide (dt > 0) && decide (dist / dt > MAX_SPEED_MS))

/-- Loop body of filterReliableTrackpoints: one candidate against the
accumulated accepted list. -/
def filterStep (hav : Hav) (result : List Trackpoint) (tp : Trackpoint) :
    List Trackpoint :=
  if accuracyOk tp then
    match result.getLast? with
    | none => result ++ [tp]
    | some prev => if speedOk hav prev tp then result ++ [tp] else result
  else result

/-- filterReliableTrackpoints (trackpointFilter.ts): single pass, two-stage
reliability filter over the ordered trackpoint list. -/
def filterReliableTrackpoints (hav : Hav) (tps : List Trackpoint) :
    List Trackpoint :=
  tps.foldl (filterStep hav) []

/-- trackpointDistance (pace.ts): sum of the abstract haversine over
successive trackpoints. -/
def trackpointDistance (hav : Hav) : List Trackpoint → ℚ
  | a :: b :: rest =>
      hav a.lat a.lng b.lat b.lng + trackpointDistance hav (b :: rest)
  | _ => 0

/-- The distance loop inside finishWorkout (queries.ts): it iterates over the
raw trackpoint rows returned by getTrackpoints, summing haversineMetres of
successive points. -/
def finishWorkoutDistance (hav : Hav) : List Trackpoint → ℚ
  | a :: b :: rest =>
      hav a.lat a.lng b.lat b.lng + finishWorkoutDistance hav (b :: rest)
  | _ => 0

/-- The cache fields written into the workouts row by finishWorkout. -/
structure FinishedFields where
  finished_at : ℚ
  distance : ℚ
  avg_sec_per_km : Option ℚ
  avg_bpm : Option ℚ
deriving DecidableEq

/-- finishWorkout (queries.ts): distance is the haversine sum over the raw
trackpoints of the workout; average pace is trackpoint time span over
distance in km when distance is positive and there are at least two points;
average bpm is the SQL AVG over all pulse rows of the workout. -/
def finishWorkout (hav : Hav) (now : ℚ) (trackpoints : List Trackpoint)
    (pulses : List Pulse) : FinishedFields :=
  let distance := finishWorkoutDistance hav trackpoints
  let avgSecPerKm : Option ℚ :=
    if distance > 0 ∧ 2 ≤ trackpoints.length then
      match trackpoints.head?, trackpoints.getLast? with
      | some f, some l =>
          some (((l.created_at - f.created_at) / 1000) / (distance / 1000))
      | _, _ => none
    else none
  let avgBpm : Option ℚ :=
    if pulses.isEmpty then none
    else some ((pulses.map (fun p => p.bpm)).sum / (pulses.length : ℚ))
  ⟨now, distance, avgSecPerKm, avgBpm⟩

/-- parseHeartRate (heartrate service): decodes a standard heart-rate
measurement frame, given as its byte list after base64 decoding.  Frames
shorter than two bytes are dropped; flag bit 0 selects a 16-bit little-endian
rate, used only when a third byte is actually present. -/
def parseHeartRate (bytes : List ℕ) : Option ℕ :=
  if bytes.length < 2 then none
  else
    let flags := bytes.getD 0 0
    let is16Bit := flags &&& 1 ≠ 0
    if is16Bit ∧ 3 ≤ bytes.length then
      some (bytes.getD 1 0 ||| (bytes.getD 2 0 <<< 8))
    else some (bytes.getD 1 0)

/-- Backward scan of paceOverWindow (pace.ts): walks the trackpoints from the
end (the list argument is the earlier points in latest-first order),
accumulating segment distance; once the accumulated distance reaches the
window it returns elapsed time over distance, scaled to seconds per km. -/
def paceAux (hav : Hav) (w tLatest : ℚ) : ℚ → Trackpoint → List Trackpoint → Option ℚ
  | _, _, [] => none
  | acc, prev, cur :: rest =>
    let acc2 := acc + hav cur.lat cur.lng prev.lat prev.lng
    if acc2 ≥ w then
      let timeSeconds := (tLatest - cur.created_at) / 1000
      if acc2 ≤ 0 ∨ timeSeconds ≤ 0 then none
      else some (timeSeconds / acc2 * 1000)
    else paceAux hav w tLatest acc2 cur rest

/-- paceOverWindow (pace.ts): pace in seconds per km over a trailing distance
window, or none when fewer than two trackpoints exist or the accumulated
distance never reaches the window. -/
def paceOverWindow (hav : Hav) (tps : List Trackpoint) (windowMetres : ℚ) :
    Option ℚ :=
  if tps.length < 2 then none
  else
    match tps.reverse with
    | [] => none
    | latest :: rest => paceAux hav windowMetres latest.created_at 0 latest rest

/-- One per-kilometre split row (splits.ts). -/
structure KmSplit where
  km : ℕ
  seconds : ℚ
  avgBpm : Option ℚ
deriving DecidableEq

/-- Sum and count of the bpm values whose timestamp falls within the window,
scanning forward and breaking at the first pulse past the window end
(loop body of averageBpmInWindow in splits.ts). -/
def bpmWindowSum (startMs endMs : ℚ) : List Pulse → ℚ × ℕ
  | [] => (0, 0)
  | p :: rest =>
    if p.created_at > endMs then (0, 0)
    else
      let sc := bpmWindowSum startMs endMs rest
      if p.created_at ≥ startMs then (sc.1 + p.bpm, sc.2 + 1) else sc

/-- averageBpmInWindow (splits.ts): average bpm of the pulses from startIdx
onward whose created_at falls within the closed window, none if no pulse
falls inside it. -/
def averageBpmInWindow (pulses : List Pulse) (startIdx : ℕ)
    (startMs endMs : ℚ) : Option ℚ :=
  let sc := bpmWindowSum startMs endMs (pulses.drop startIdx)
  if 0 < sc.2 then some (sc.1 / (sc.2 : ℚ)) else none

/-- Number of leading pulses whose timestamp is at most endMs: the number of
iterations of the advancePulseIdx while loop. -/
def advanceCount (endMs : ℚ) : List Pulse → ℕ
  | [] => 0
  | p :: rest => if p.created_at ≤ endMs then 1 + advanceCount endMs rest else 0

/-- advancePulseIdx (splits.ts): advance the cursor past every pulse whose
timestamp is at most endMs, stopping at the first later pulse or the end of
the list. -/
def advancePulseIdx (pulses : List Pulse) (idx : ℕ) (endMs : ℚ) : ℕ :=
  idx + advanceCount endMs (pulses.drop idx)

/-- Loop state of computeKmSplits (splits.ts). -/
structure SplitState where
  splits : List KmSplit
  cumulativeDistance : ℚ
  splitStartTime : ℚ
  nextKmBoundary : ℚ
  pulseIdx : ℕ

/-- Loop body of computeKmSplits (splits.ts) over one consecutive trackpoint
pair: accumulate the segment distance and, when the cumulative distance has
reached the next km boundary, close a split recording elapsed time and the
average bpm of the pulses in that time window. -/
def splitStep (hav : Hav) (pulses : List Pulse) (st : SplitState)
    (pair : Trackpoint × Trackpoint) : SplitState :=
  let segDist := hav pair.1.lat pair.1.lng pair.2.lat pair.2.lng
  let cum := st.cumulativeDistance + segDist
  if cum ≥ st.nextKmBoundary then
    let splitEndTime := pair.2.created_at
    let seconds := (splitEndTime - st.splitStartTime) / 1000
    let avgBpm := averageBpmInWindow pulses st.pulseIdx st.splitStartTime splitEndTime
    { splits := st.splits ++ [⟨st.splits.length + 1, seconds, avgBpm⟩]
      cumulativeDistance := cum
      splitStartTime := splitEndTime
      nextKmBoundary := st.nextKmBoundary + 1000
      pulseIdx := advancePulseIdx pulses st.pulseIdx splitEndTime }
  else { st with cumulativeDistance := cum }

/-- The consecutive pairs (tp[i-1], tp[i]) visited by the splits loop. -/
def consecutivePairs : List Trackpoint → List (Trackpoint × Trackpoint)
  | a :: b :: rest => (a, b) :: consecutivePairs (b :: rest)
  | _ => []

/-- computeKmSplits (src/utils/splits.ts): per-kilometre splits over the given
(already filtered) trackpoint sequence; this variant omits the trailing
incomplete kilometre. -/
def computeKmSplits (hav : Hav) (tps : List Trackpoint) (pulses : List Pulse) :
    List KmSplit :=
  match tps with
  | first :: b :: rest =>
    ((consecutivePairs (first :: b :: rest)).foldl (splitStep hav pulses)
      { splits := []
        cumulativeDistance := 0
        splitStartTime := first.created_at
        nextKmBoundary := 1000
        pulseIdx := 0 }).splits
  | _ => []

/-- One workouts row (schema.ts / queries.ts). -/
structure Workout where
  id : ℕ
  started_at : ℚ
  finished_at : Option ℚ
  distance : Option ℚ
  avg_sec_per_km : Option ℚ
  avg_bpm : Option ℚ
deriving DecidableEq

/-- The persistent store: the three tables plus the monotonically increasing
rowid counter of the workouts table. -/
structure Store where
  workouts : List Workout
  trackpoints : List (ℕ × Trackpoint)
  pulses : List (ℕ × Pulse)
  nextId : ℕ
deriving DecidableEq

/-- The empty store. -/
def emptyStore : Store := ⟨[], [], [], 1⟩

/-- startWorkout (queries.ts): unconditionally inserts a workouts row with
started_at set and every other column null, returning the fresh rowid.  The
source performs no check that no other workout is still active. -/
def startWorkout (now : ℚ) (s : Store) : Store × ℕ :=
  ({ s with
      workouts := s.workouts ++ [⟨s.nextId, now, none, none, none, none⟩]
      nextId := s.nextId + 1 },
   s.nextId)

/-- getTrackpoints (queries.ts): the trackpoint rows of one workout in
insertion (timestamp) order. -/
def getTrackpoints (workoutId : ℕ) (s : Store) : List Trackpoint :=
  (s.trackpoints.filter (fun r => r.1 == workoutId)).map (fun r => r.2)

/-- The pulse rows of one workout, as read by the AVG(bpm) query of
finishWorkout (queries.ts). -/
def getPulses (workoutId : ℕ) (s : Store) : List Pulse :=
  (s.pulses.filter (fun r => r.1 == workoutId)).map (fun r => r.2)

/-- finishWorkout at the store level (queries.ts): computes the cache fields
from the raw trackpoints and pulses of the workout and updates the matching
workouts row, setting finished_at to now. -/
def finishWorkoutStore (hav : Hav) (workoutId : ℕ) (now : ℚ) (s : Store) :
    Store :=
  let f := finishWorkout hav now (getTrackpoints workoutId s) (getPulses workoutId s)
  { s with
      workouts := s.workouts.map (fun w =>
        if w.id == workoutId then
          { w with
              finished_at := some f.finished_at
              distance := some f.distance
              avg_sec_per_km := f.avg_sec_per_km
              avg_bpm := f.avg_bpm }
        else w) }

/-- deleteWorkout (queries.ts), success path: three separate DELETE
statements, pulses first, then trackpoints, then the workouts row. -/
def deleteWorkout (workoutId : ℕ) (s : Store) : Store :=
  { s with
      pulses := s.pulses.filter (fun r => r.1 != workoutId)
      trackpoints := s.trackpoints.filter (fun r => r.1 != workoutId)
      workouts := s.workouts.filter (fun w => w.id != workoutId) }

/-- deleteWorkout with a fallible statement model: the source runs its three
DELETE statements sequentially with no surrounding transaction, so a
statement that throws leaves every earlier statement committed.  ok1, ok2,
ok3 say whether each statement succeeds; the Bool result reports whether the
whole call completed. -/
def deleteWorkoutFallible (ok1 ok2 ok3 : Bool) (workoutId : ℕ) (s : Store) :
    Bool × Store :=
  if !ok1 then (false, s)
  else
    let s1 := { s with pulses := s.pulses.filter (fun r => r.1 != workoutId) }
    if !ok2 then (false, s1)
    else
      let s2 := { s1 with
        trackpoints := s1.trackpoints.filter (fun r => r.1 != workoutId) }
      if !ok3 then (false, s2)
      else (true, { s2 with workouts := s2.workouts.filter (fun w => w.id != workoutId) })

/-- Number of workouts rows whose finished_at is null. -/
def activeCount (s : Store) : ℕ :=
  s.workouts.countP (fun w => w.finished_at.isNone)

/-- One orchestrator-level operation on the store (useWorkoutRecording.ts):
start inserts a new workout, finish finalises one, discard deletes one. -/
inductive WorkoutOp where
  | start (now : ℚ)
  | finish (id : ℕ) (now : ℚ)
  | discard (id : ℕ)
deriving DecidableEq

/-- Apply one lifecycle operation to the store. -/
def applyOp (hav : Hav) (s : Store) : WorkoutOp → Store
  | .start now => (startWorkout now s).1
  | .finish id now => finishWorkoutStore hav id now s
  | .discard id => deleteWorkout id s

/-- Run a sequence of lifecycle operations. -/
def runOps (hav : Hav) (s : Store) : List WorkoutOp → Store
  | [] => s
  | op :: rest => runOps hav (applyOp hav s op) rest

/-- A sequence is Idle-guarded when every start operation is issued while no
workout is active, the precondition the orchestrator state machine places on
its start transition. -/
def idleGuarded (hav : Hav) (s : Store) : List WorkoutOp → Bool
  | [] => true
  | op :: rest =>
    (match op with
     | .start _ => activeCount s == 0
     | _ => true) && idleGuarded hav (applyOp hav s op) rest

/-- Reconnection interval of the heart-rate producer in milliseconds
(heartrate service). -/
def RECONNECT_INTERVAL_MS : ℕ := 10000

/-- Maximum number of reconnection attempts (heartrate service). -/
def MAX_RECONNECT_ATTEMPTS : ℕ := 30

/-- Connection state of the heart-rate producer (heartrate service). -/
inductive HrConnectionState where
  | disconnected
  | scanning
  | connecting
  | connected
deriving DecidableEq

/-- Module-level mutable state of the heart-rate producer (heartrate
service); the pending reconnect timer is modelled by its delay in ms. -/
structure HrState where
  connectionState : HrConnectionState
  activeWorkoutId : Option ℕ
  connectedDevice : Option ℕ
  lastBpm : Option ℚ
  reconnectTimer : Option ℕ
deriving DecidableEq

/-- cancelReconnect (heartrate service): clears any pending reconnect timer. -/
def cancelReconnect (s : HrState) : HrState :=
  { s with reconnectTimer := none }

/-- scheduleReconnect (heartrate service): cancels any previous schedule and
arms a fresh timer at the fixed interval. -/
def scheduleReconnect (s : HrState) : HrState :=
  { cancelReconnect s with reconnectTimer := some RECONNECT_INTERVAL_MS }

/-- The onDeviceDisconnected handler installed by connectToDevice (heartrate
service): drops the link state and schedules reconnection only when a workout
is currently active. -/
def onDeviceDisconnected (s : HrState) : HrState :=
  let s1 := { s with
    connectedDevice := none
    lastBpm := none
    connectionState := HrConnectionState.disconnected }
  if s1.activeWorkoutId.isSome then scheduleReconnect s1 else s1

/-- The explicit disconnect operation (heartrate service): cancels any
pending reconnect schedule, tears down the link and reports disconnected. -/
def hrDisconnect (s : HrState) : HrState :=
  { cancelReconnect s with
      lastBpm := none
      connectedDevice := none
      connectionState := HrConnectionState.disconnected }

/-- Number of connect attempts performed by the tryReconnect loop of
scheduleReconnect (heartrate service) when starting from the given attempts
counter: the loop gives up once the counter has reached
MAX_RECONNECT_ATTEMPTS, stops after a successful connect, and otherwise
re-arms the timer and retries. -/
def tryReconnectCount (connectOk : ℕ → Bool) (attempts : ℕ) : ℕ :=
  if MAX_RECONNECT_ATTEMPTS ≤ attempts then 0
  else if connectOk attempts then 1
  else 1 + tryReconnectCount connectOk (attempts + 1)
termination_by MAX_RECONNECT_ATTEMPTS - attempts
decreasing_by omega

/-- The timer delay armed before each connect attempt of the tryReconnect
loop, in order: every entry comes from a setTimeout of 10000 ms. -/
def reconnectDelays (connectOk : ℕ → Bool) (attempts : ℕ) : List ℕ :=
  if MAX_RECONNECT_ATTEMPTS ≤ attempts then []
  else if connectOk attempts then [RECONNECT_INTERVAL_MS]
  else RECONNECT_INTERVAL_MS :: reconnectDelays connectOk (attempts + 1)
termination_by MAX_RECONNECT_ATTEMPTS - attempts
decreasing_by omega

/-- Result reported by the backup procedure (backup.ts). -/
inductive BackupResult where
  | not_configured
  | success
  | failed
deriving DecidableEq

/-- Status published on the backup status channel (backup.ts). -/
inductive BackupStatus where
  | not_configured
  | idle
  | in_progress
  | success
  | failed
deriving DecidableEq

/-- Keys of the kv settings table used by the backup and heart-rate code. -/
inductive KVKey where
  | backup_webdav_url
  | backup_webdav_username
  | backup_webdav_password
  | ble_last_device_id
  | ble_last_device_name
deriving DecidableEq, BEq

/-- kvGet (queries.ts): value of a settings key, none when absent. -/
def kvGet (kv : List (KVKey × String)) (key : KVKey) : Option String :=
  (kv.find? (fun p => p.1 == key)).map (fun p => p.2)

/-- Observable outcome of one run of backupDatabase (backup.ts): the returned
result, the statuses published in order, and which steps ran. -/
structure BackupRun where
  result : BackupResult
  statuses : List BackupStatus
  localAttempted : Bool
  localSucceeded : Bool
  uploadAttempted : Bool
deriving DecidableEq

/-- backupDatabase (src/services/backup.ts): bails out when the database file
is missing; always attempts the local copy, swallowing its failure; then,
only when the WebDAV URL setting is present and non-empty, uploads via HTTP
PUT and reports success or failed from the upload outcome, publishing
in_progress first.  localOk and uploadOk stand for the outcomes of the
fallible local copy and upload steps. -/
def backupDatabase (dbExists : Bool) (kv : List (KVKey × String))
    (localOk uploadOk : Bool) : BackupRun :=
  if !dbExists then ⟨.failed, [], false, false, false⟩
  else
    match kvGet kv KVKey.backup_webdav_url with
    | none => ⟨.not_configured, [.not_configured], true, localOk, false⟩
    | some url =>
      if url = "" then ⟨.not_configured, [.not_configured], true, localOk, false⟩
      else if uploadOk then
        ⟨.success, [.in_progress, .success], true, localOk, true⟩
      else ⟨.failed, [.in_progress, .failed], true, localOk, true⟩

/-- Modelled from the spec: createSnapshot (backup variant using VACUUM INTO,
whose SQLite semantics are outside the repository).  Per the spec, a
successful snapshot is a self-contained, point-in-time-consistent copy of the
entire store with any write-ahead-log state merged in, independent of
subsequent writes to the live store; a failing snapshot produces nothing.
snapOk stands for the outcome of the VACUUM INTO statement. -/
def createSnapshot (snapOk : Bool) (db : Store) : Option Store :=
  if snapOk then some db else none

/-- Observable outcome of one run of the snapshot-based backupDatabase. -/
structure SnapshotBackupRun where
  result : BackupResult
  snapshot : Option Store
  localAttempted : Bool
  uploadAttempted : Bool
deriving DecidableEq

/-- backupDatabase (snapshot variant): a snapshot failure aborts the whole
procedure with result failed before any local or remote step; otherwise the
local copy and the conditional WebDAV upload proceed over the snapshot. -/
def backupDatabaseSnapshot (snapOk : Bool) (db : Store)
    (kv : List (KVKey × String)) (uploadOk : Bool) : SnapshotBackupRun :=
  match createSnapshot snapOk db with
  | none => ⟨.failed, none, false, false⟩
  | some snap =>
    match kvGet kv KVKey.backup_webdav_url with
    | none => ⟨.not_configured, some snap, true, false⟩
    | some url =>
      if url = "" then ⟨.not_configured, some snap, true, false⟩
      else if uploadOk then ⟨.success, some snap, true, true⟩
      else ⟨.failed, some snap, true, true⟩

/-- Backward accumulated segment distance as traversed by paceAux: the list
holds earlier points, latest-first, and prev is the point just after them. -/
def backSegSum (hav : Hav) : Trackpoint → List Trackpoint → ℚ
  | _, [] => 0
  | prev, cur :: rest =>
      hav cur.lat cur.lng prev.lat prev.lng + backSegSum hav cur rest

/-- Concrete distance function for witnesses: constant 500 m per segment. -/
def havConst500 : Hav := fun _ _ _ _ => 500

/-- Concrete distance function for witnesses: constant large distance. -/
def havBig : Hav := fun _ _ _ _ => 1000000

/-- Synthetic straight-line track: three points, two 500 m segments, so
1000 m covered in 300 s. -/
def straightTrack : List Trackpoint :=
  [⟨0, 0, 0, none, some 5⟩, ⟨150000, 1, 0, none, some 5⟩,
   ⟨300000, 2, 0, none, some 5⟩]

/-- Synthetic constant-speed 2500 m track: six points, 500 m and 60 s per
segment. -/
def track2500 : List Trackpoint :=
  [⟨0, 0, 0, none, some 5⟩, ⟨60000, 1, 0, none, some 5⟩,
   ⟨120000, 2, 0, none, some 5⟩, ⟨180000, 3, 0, none, some 5⟩,
   ⟨240000, 4, 0, none, some 5⟩, ⟨300000, 5, 0, none, some 5⟩]

/-- Pulses for the 2500 m track: two in the first kilometre window, one in
the second. -/
def pulses2500 : List Pulse := [⟨60000, 100⟩, ⟨90000, 120⟩, ⟨180000, 130⟩]

/-- Trackpoints exercising finishWorkout: the middle point has no error
estimate, so the reliability filter rejects it. -/
def c1Tps : List Trackpoint :=
  [⟨0, 0, 0, none, some 5⟩, ⟨60000, 10, 0, none, none⟩, ⟨120000, 0, 0, none, some 5⟩]

/-- Concrete distance function: constant 10 m per segment. -/
def havConst10 : Hav := fun _ _ _ _ => 10

/-- Store produced by calling startWorkout twice on the empty store. -/
def c2DoubleStart : Store := (startWorkout 10 (startWorkout 0 emptyStore).1).1

/-- Store with one workout owning one trackpoint and one pulse. -/
def c5Store : Store :=
  ⟨[⟨1, 0, none, none, none, none⟩],
   [(1, ⟨0, 0, 0, none, some 5⟩)],
   [(1, ⟨0, 120⟩)],
   2⟩

/-- Good trackpoint fixture at time 0. -/
def tpGoodA : Trackpoint := ⟨0, 0, 0, none, some 5⟩

/-- Good trackpoint fixture one second later. -/
def tpGoodB : Trackpoint := ⟨1000, 1, 0, none, some 5⟩

/-- Trackpoint fixture with an absent error estimate. -/
def tpNoErr : Trackpoint := ⟨500, 5, 0, none, none⟩

/-- C10: a heart-rate frame shorter than 2 bytes decodes to none (dropped);
a 2-byte frame whose flag bit 0 declares a 16-bit rate is not dropped but
decoded as an 8-bit rate from byte 1; a 16-bit frame of at least 3 bytes
decodes little-endian as byte1 bitor byte2 shifted left by 8. -/
theorem C10_parseHeartRate (bytes : List ℕ) :
    (bytes.length < 2 → parseHeartRate bytes = none) ∧
    (∀ b0 b1, bytes = [b0, b1] → b0 &&& 1 ≠ 0 →
      parseHeartRate bytes = some b1) ∧
    (∀ b0 b1 b2 rest, bytes = b0 :: b1 :: b2 :: rest → b0 &&& 1 ≠ 0 →
      parseHeartRate bytes = some (b1 ||| (b2 <<< 8))) := by
  refine ⟨fun h => by simp [parseHeartRate, h], ?_, ?_⟩
  · rintro b0 b1 rfl h
    simp [parseHeartRate, h]
  · rintro b0 b1 b2 rest rfl h
    have hlen : ¬ (b0 :: b1 :: b2 :: rest).length < 2 := by simp
    have hlen3 : 3 ≤ (b0 :: b1 :: b2 :: rest).length := by simp
    rw [Nat.and_one_is_mod] at h
    simp [parseHeartRate, hlen, h, hlen3]

/-- Witness for C10 at concrete frames: a 16-bit flagged 2-byte frame, a
3-byte 16-bit frame, and a 1-byte frame. -/
theorem C10_parseHeartRate_witness :
    parseHeartRate [1, 200] = some 200 ∧
    parseHeartRate [1, 2, 1] = some 258 ∧
    parseHeartRate [5] = none :=
  ⟨(C10_parseHeartRate [1, 200]).2.1 1 200 rfl (by decide),
   (C10_parseHeartRate [1, 2, 1]).2.2 1 2 1 [] rfl (by decide),
   (C10_parseHeartRate [5]).1 (by decide)⟩

/-- C9: backupDatabase reports not_configured when the WebDAV URL setting is
absent or empty; with a configured URL it reports success or failed from the
upload outcome; the local copy is always attempted and its outcome never
affects the remote result or whether the upload runs, and a failed upload
never rolls back the local copy. -/
theorem C9_backupDatabase (kv : List (KVKey × String)) (localOk uploadOk : Bool) :
    ((kvGet kv KVKey.backup_webdav_url = none ∨
      kvGet kv KVKey.backup_webdav_url = some "") →
      (backupDatabase true kv localOk uploadOk).result = BackupResult.not_configured) ∧
    (∀ url, kvGet kv KVKey.backup_webdav_url = some url → url ≠ "" →
      (backupDatabase true kv localOk uploadOk).result
        = (if uploadOk then BackupResult.success else BackupResult.failed)) ∧
    (backupDatabase true kv localOk uploadOk).localAttempted = true ∧
    (backupDatabase true kv localOk uploadOk).uploadAttempted
      = (backupDatabase true kv true uploadOk).uploadAttempted ∧
    (backupDatabase true kv localOk uploadOk).result
      = (backupDatabase true kv true uploadOk).result ∧
    (backupDatabase true kv localOk uploadOk).localSucceeded = localOk := by
  refine ⟨?_, ?_, ?_, ?_, ?_, ?_⟩
  · rintro (h | h) <;> simp [backupDatabase, h]
  · intro url hurl hne
    rcases Bool.eq_false_or_eq_true uploadOk with hu | hu <;>
      simp [backupDatabase, hurl, hne, hu]
  all_goals
    cases h : kvGet kv KVKey.backup_webdav_url with
    | none => simp [backupDatabase, h]
    | some url =>
      by_cases hne : url = "" <;>
        rcases Bool.eq_false_or_eq_true uploadOk with hu | hu <;>
          simp [backupDatabase, h, hne, hu]

/-- Witness for C9 at a concrete settings table: configured URL with a failing
local copy and a succeeding upload. -/
theorem C9_backupDatabase_witness :
    (backupDatabase true [(KVKey.backup_webdav_url, "https")] false true).result
      = BackupResult.success ∧
    (backupDatabase true [] false true).result = BackupResult.not_configured := by
  have h1 := C9_backupDatabase [(KVKey.backup_webdav_url, "https")] false true
  have h2 := C9_backupDatabase [] false true
  refine ⟨?_, h2.1 (Or.inl (by decide))⟩
  have := h1.2.1 "https" (by decide) (by decide)
  simpa using this

/-- C4: a createSnapshot failure aborts the whole backup with result failed
before any local or remote step runs; a successful snapshot is the
point-in-time state of the store at the moment of the snapshot, regardless of
the configured endpoint or upload outcome. -/
theorem C4_backupDatabaseSnapshot (db : Store) (kv : List (KVKey × String))
    (uploadOk : Bool) :
    backupDatabaseSnapshot false db kv uploadOk
      = ⟨BackupResult.failed, none, false, false⟩ ∧
    (backupDatabaseSnapshot true db kv uploadOk).snapshot = some db := by
  constructor
  · simp [backupDatabaseSnapshot, createSnapshot]
  · cases h : kvGet kv KVKey.backup_webdav_url with
    | none => simp [backupDatabaseSnapshot, createSnapshot, h]
    | some url =>
      by_cases hne : url = "" <;>
        rcases Bool.eq_false_or_eq_true uploadOk with hu | hu <;>
          simp [backupDatabaseSnapshot, createSnapshot, h, hne, hu]

/-- The tryReconnect loop performs at most the remaining attempt budget. -/
theorem tryReconnectCount_le (connectOk : ℕ → Bool) (a : ℕ) :
    tryReconnectCount connectOk a ≤ MAX_RECONNECT_ATTEMPTS - a := by
  unfold tryReconnectCount
  split
  · omega
  · split
    · omega
    · have ih := tryReconnectCount_le connectOk (a + 1)
      omega
termination_by MAX_RECONNECT_ATTEMPTS - a
decreasing_by omega

/-- Every timer the tryReconnect loop arms uses the fixed interval. -/
theorem reconnectDelays_fixed (connectOk : ℕ → Bool) (a : ℕ) :
    ∀ d ∈ reconnectDelays connectOk a, d = RECONNECT_INTERVAL_MS := by
  intro d hd
  unfold reconnectDelays at hd
  split at hd
  · simp at hd
  · split at hd
    · simpa using hd
    · rcases List.mem_cons.mp hd with h | h
      · exact h
      · exact reconnectDelays_fixed connectOk (a + 1) d h
termination_by MAX_RECONNECT_ATTEMPTS - a
decreasing_by omega

/-- C6: after an unsolicited disconnect, the producer retries at a fixed
10-second interval for at most 30 attempts; a successful connect at any
point stops after that single attempt (the remaining budget is cancelled);
an explicit disconnect clears any pending retry timer; and the disconnect
handler schedules a reconnect timer only when a workout is active. -/
theorem C6_reconnect (connectOk : ℕ → Bool) (a : ℕ) (s : HrState) :
    tryReconnectCount connectOk 0 ≤ MAX_RECONNECT_ATTEMPTS ∧
    (∀ d ∈ reconnectDelays connectOk a, d = RECONNECT_INTERVAL_MS) ∧
    (connectOk a = true → a < MAX_RECONNECT_ATTEMPTS →
      tryReconnectCount connectOk a = 1) ∧
    (hrDisconnect s).reconnectTimer = none ∧
    (s.activeWorkoutId = none →
      (onDeviceDisconnected s).reconnectTimer = s.reconnectTimer) ∧
    (s.activeWorkoutId.isSome →
      (onDeviceDisconnected s).reconnectTimer = some RECONNECT_INTERVAL_MS) := by
  refine ⟨?_, reconnectDelays_fixed connectOk a, ?_, rfl, ?_, ?_⟩
  · simpa using tryReconnectCount_le connectOk 0
  · intro hok hlt
    unfold tryReconnectCount
    simp [Nat.not_le.mpr hlt, hok]
  · intro h
    simp [onDeviceDisconnected, h]
  · intro h
    simp [onDeviceDisconnected, h, scheduleReconnect, cancelReconnect]

/-- Witness for C6 at a concrete oracle and state: an immediately successful
reconnect performs exactly one attempt, and the disconnect handler with no
active workout leaves no timer armed. -/
theorem C6_reconnect_witness :
    tryReconnectCount (fun _ => true) 0 = 1 ∧
    (onDeviceDisconnected
      ⟨HrConnectionState.connected, none, some 1, none, none⟩).reconnectTimer
        = none := by
  have h := C6_reconnect (fun _ => true) 0
    ⟨HrConnectionState.connected, none, some 1, none, none⟩
  exact ⟨h.2.2.1 rfl (by decide), h.2.2.2.2.1 rfl⟩

/-- A point passes the accuracy gate exactly when its error estimate is
present and below the threshold. -/
theorem accuracyOk_iff (tp : Trackpoint) :
    accuracyOk tp = true ↔ ∃ e, tp.err = some e ∧ e < GPS_ERR_THRESHOLD := by
  unfold accuracyOk
  cases tp.err <;> simp

/-- The filter loop body either keeps the accepted list unchanged or appends
the candidate. -/
theorem filterStep_shape (hav : Hav) (acc : List Trackpoint) (tp : Trackpoint) :
    filterStep hav acc tp = acc ∨ filterStep hav acc tp = acc ++ [tp] := by
  unfold filterStep
  by_cases hacc : accuracyOk tp = true
  · cases h : acc.getLast? with
    | none => simp [hacc, h]
    | some prev =>
      by_cases hs : speedOk hav prev tp = true <;> simp [hacc, h, hs]
  · simp [hacc]

/-- Membership after one filter step: either already accepted, or the
candidate itself, which then passed the accuracy gate. -/
theorem mem_filterStep (hav : Hav) (acc : List Trackpoint) (tp x : Trackpoint)
    (hx : x ∈ filterStep hav acc tp) :
    x ∈ acc ∨ (x = tp ∧ accuracyOk tp = true) := by
  by_cases hacc : accuracyOk tp = true
  · rcases filterStep_shape hav acc tp with h | h
    · rw [h] at hx
      exact Or.inl hx
    · rw [h] at hx
      rcases List.mem_append.mp hx with h1 | h1
      · exact Or.inl h1
      · exact Or.inr ⟨by simpa using h1, hacc⟩
  · unfold filterStep at hx
    simp [hacc] at hx
    exact Or.inl hx

/-- The filter fold only ever appends accepted candidates, so the result is
the initial accumulator followed by an order-preserving subsequence of the
input. -/
theorem foldl_filterStep_append (hav : Hav) :
    ∀ (tps acc : List Trackpoint),
      ∃ t, tps.foldl (filterStep hav) acc = acc ++ t ∧ t.Sublist tps := by
  intro tps
  induction tps with
  | nil => exact fun acc => ⟨[], by simp, by simp⟩
  | cons tp rest ih =>
    intro acc
    rcases filterStep_shape hav acc tp with h | h
    · rcases ih (filterStep hav acc tp) with ⟨t, ht, hs⟩
      rw [h] at ht
      refine ⟨t, ?_, hs.cons tp⟩
      rw [List.foldl_cons, h]
      exact ht
    · rcases ih (filterStep hav acc tp) with ⟨t, ht, hs⟩
      rw [h] at ht
      refine ⟨tp :: t, ?_, hs.cons₂ tp⟩
      rw [List.foldl_cons, h]
      simpa [List.append_assoc] using ht

/-- Every point surviving the filter fold passed the accuracy gate. -/
theorem foldl_filterStep_accuracy (hav : Hav) :
    ∀ (tps acc : List Trackpoint), (∀ x ∈ acc, accuracyOk x = true) →
      ∀ x ∈ tps.foldl (filterStep hav) acc, accuracyOk x = true := by
  intro tps
  induction tps with
  | nil => intro acc h; simpa using h
  | cons tp rest ih =>
    intro acc h
    apply ih
    intro x hx
    rcases mem_filterStep hav acc tp x hx with h1 | ⟨rfl, h1⟩
    · exact h x h1
    · exact h1

/-- C3: the reliability filter never outputs a sample whose horizontal-error
estimate is absent or at least 20 metres; its output is an order-preserving
subsequence of the input; and whenever the candidate and the last accepted
sample imply, over a positive elapsed time, a speed above 14 metres per
second, the loop body excludes the candidate. -/
theorem C3_filterReliableTrackpoints (hav : Hav) (tps : List Trackpoint) :
    (∀ tp ∈ filterReliableTrackpoints hav tps,
      ∃ e, tp.err = some e ∧ e < GPS_ERR_THRESHOLD) ∧
    (filterReliableTrackpoints hav tps).Sublist tps ∧
    (∀ res prev tp, res.getLast? = some prev →
      0 < (tp.created_at - prev.created_at) / 1000 →
      MAX_SPEED_MS <
        hav prev.lat prev.lng tp.lat tp.lng /
          ((tp.created_at - prev.created_at) / 1000) →
      filterStep hav res tp = res) := by
  refine ⟨?_, ?_, ?_⟩
  · intro tp htp
    exact (accuracyOk_iff tp).mp
      (foldl_filterStep_accuracy hav tps [] (by simp) tp htp)
  · rcases foldl_filterStep_append hav tps [] with ⟨t, ht, hs⟩
    unfold filterReliableTrackpoints
    rw [ht]
    simpa using hs
  · intro res prev tp hlast hdt hspeed
    have hsp : speedOk hav prev tp = false := by
      unfold speedOk
      simp only [Bool.not_eq_true']
      simp [hdt, hspeed]
    unfold filterStep
    by_cases hacc : accuracyOk tp = true
    · simp [hacc, hlast, hsp]
    · simp [hacc]

/-- Witness for C3 at concrete inputs: the point without an error estimate is
filtered out (the output is a subsequence missing it), and a candidate
implying 1000 km in one second is excluded by the loop body. -/
theorem C3_filterReliableTrackpoints_witness :
    (∀ tp ∈ filterReliableTrackpoints havBig [tpGoodA, tpNoErr],
      ∃ e, tp.err = some e ∧ e < GPS_ERR_THRESHOLD) ∧
    filterStep havBig [tpGoodA] tpGoodB = [tpGoodA] := by
  have h1 := C3_filterReliableTrackpoints havBig [tpGoodA, tpNoErr]
  have h2 := C3_filterReliableTrackpoints havBig [tpGoodA, tpGoodB]
  exact ⟨h1.1,
    h2.2.2 [tpGoodA] tpGoodA tpGoodB rfl
      (by norm_num [tpGoodA, tpGoodB])
      (by norm_num [tpGoodA, tpGoodB, havBig, MAX_SPEED_MS])⟩

/-- Backward segment sums are nonnegative for a nonnegative distance
function. -/
theorem backSegSum_nonneg (hav : Hav) (hnn : ∀ a b c d, 0 ≤ hav a b c d) :
    ∀ (l : List Trackpoint) (prev : Trackpoint), 0 ≤ backSegSum hav prev l := by
  intro l
  induction l with
  | nil => intro prev; simp [backSegSum]
  | cons cur rest ih =>
    intro prev
    have h1 := hnn cur.lat cur.lng prev.lat prev.lng
    have h2 := ih cur
    simp only [backSegSum]
    linarith

/-- The backward scan returns none when even the full remaining backward
distance cannot reach the window. -/
theorem paceAux_none_of_lt (hav : Hav) (hnn : ∀ a b c d, 0 ≤ hav a b c d)
    (w tLatest : ℚ) :
    ∀ (l : List Trackpoint) (prev : Trackpoint) (acc : ℚ),
      acc + backSegSum hav prev l < w →
      paceAux hav w tLatest acc prev l = none := by
  intro l
  induction l with
  | nil => intro prev acc _; rfl
  | cons cur rest ih =>
    intro prev acc hlt
    have htail : 0 ≤ backSegSum hav cur rest := backSegSum_nonneg hav hnn rest cur
    have hseg : acc + hav cur.lat cur.lng prev.lat prev.lng + backSegSum hav cur rest < w := by
      simp only [backSegSum] at hlt
      linarith
    have hnotge : ¬ (acc + hav cur.lat cur.lng prev.lat prev.lng ≥ w) := by
      intro hge
      linarith
    simp only [paceAux, hnotge, if_false]
    exact ih cur (acc + hav cur.lat cur.lng prev.lat prev.lng) hseg

/-- Appending one more point adds the distance of the final segment. -/
theorem trackpointDistance_append_last (hav : Hav) (b : Trackpoint) :
    ∀ (L : List Trackpoint) (a : Trackpoint),
      trackpointDistance hav (L ++ [a, b])
        = trackpointDistance hav (L ++ [a]) + hav a.lat a.lng b.lat b.lng := by
  intro L
  induction L with
  | nil =>
    intro a
    simp [trackpointDistance]
  | cons x rest ih =>
    intro a
    cases rest with
    | nil =>
      simp only [List.cons_append, List.nil_append, trackpointDistance]
      ring
    | cons y rest2 =>
      have h := ih a
      simp only [List.cons_append, List.append_eq, trackpointDistance] at h ⊢
      linarith [h]

/-- The backward segment sum over the reversed tail equals the forward
distance over the original list. -/
theorem backSegSum_eq_trackpointDistance (hav : Hav) :
    ∀ (l : List Trackpoint) (prev : Trackpoint),
      backSegSum hav prev l = trackpointDistance hav ((prev :: l).reverse) := by
  intro l
  induction l with
  | nil => intro prev; simp [backSegSum, trackpointDistance]
  | cons cur rest ih =>
    intro prev
    have h1 : (prev :: cur :: rest).reverse = rest.reverse ++ [cur, prev] := by
      simp
    have h2 : (cur :: rest).reverse = rest.reverse ++ [cur] := by
      simp
    simp only [backSegSum, ih cur, h1, h2, trackpointDistance_append_last]
    ring

/-- C7: the windowed pace is none for fewer than two samples and none when
the accumulated backward distance never reaches the window (any sequence
whose total distance is below the window, for a nonnegative distance
function); on a straight-line 1000 m track covered in 300 s it returns
exactly 300 s/km for window 1000, i.e. elapsed time over accumulated
distance times 1000. -/
theorem C7_paceOverWindow (hav : Hav) (tps : List Trackpoint) (w : ℚ) :
    (tps.length < 2 → paceOverWindow hav tps w = none) ∧
    ((∀ a b c d, 0 ≤ hav a b c d) → trackpointDistance hav tps < w →
      paceOverWindow hav tps w = none) ∧
    paceOverWindow havConst500 straightTrack 1000 = some 300 := by
  refine ⟨fun h => by simp [paceOverWindow, h], ?_, ?_⟩
  · intro hnn hlt
    unfold paceOverWindow
    by_cases hlen : tps.length < 2
    · simp [hlen]
    · simp only [hlen, if_false]
      cases hrev : tps.reverse with
      | nil => rfl
      | cons latest rest =>
        have htps : (latest :: rest).reverse = tps := by
          rw [← hrev, List.reverse_reverse]
        have hsum : backSegSum hav latest rest = trackpointDistance hav tps := by
          rw [backSegSum_eq_trackpointDistance hav rest latest, htps]
        apply paceAux_none_of_lt hav hnn
        rw [hsum]
        linarith
  · norm_num [paceOverWindow, straightTrack, paceAux, havConst500]

/-- Witness for C7 at concrete inputs: a single-point list gives none, and a
1000 m total track never reaches a 2000 m window. -/
theorem C7_paceOverWindow_witness :
    paceOverWindow havConst500 [tpGoodA] 100 = none ∧
    paceOverWindow havConst500 straightTrack 2000 = none := by
  have h1 := C7_paceOverWindow havConst500 [tpGoodA] 100
  have h2 := C7_paceOverWindow havConst500 straightTrack 2000
  refine ⟨h1.1 (by norm_num), h2.2.1 (fun a b c d => by norm_num [havConst500]) ?_⟩
  norm_num [trackpointDistance, straightTrack, havConst500]

/-- Split numbering is positional: fold steps only append a split numbered
one past the current count. -/
theorem splits_numbering (hav : Hav) (pulses : List Pulse) :
    ∀ (pairs : List (Trackpoint × Trackpoint)) (st : SplitState),
      (∀ i s, st.splits[i]? = some s → s.km = i + 1) →
      ∀ i s, ((pairs.foldl (splitStep hav pulses) st).splits)[i]? = some s →
        s.km = i + 1 := by
  intro pairs
  induction pairs with
  | nil => intro st h; simpa using h
  | cons pr rest ih =>
    intro st h
    apply ih
    intro i s hs
    by_cases hclose :
        st.cumulativeDistance + hav pr.1.lat pr.1.lng pr.2.lat pr.2.lng
          ≥ st.nextKmBoundary
    · have hstep : splitStep hav pulses st pr =
        { splits := st.splits ++
            [⟨st.splits.length + 1,
              (pr.2.created_at - st.splitStartTime) / 1000,
              averageBpmInWindow pulses st.pulseIdx st.splitStartTime pr.2.created_at⟩]
          cumulativeDistance :=
            st.cumulativeDistance + hav pr.1.lat pr.1.lng pr.2.lat pr.2.lng
          splitStartTime := pr.2.created_at
          nextKmBoundary := st.nextKmBoundary + 1000
          pulseIdx := advancePulseIdx pulses st.pulseIdx pr.2.created_at } := by
        unfold splitStep
        simp only [hclose, if_true]
      rw [hstep] at hs
      simp only at hs
      by_cases hi : i < st.splits.length
      · rw [List.getElem?_append_left hi] at hs
        exact h i s hs
      · rw [List.getElem?_append_right (Nat.le_of_not_lt hi)] at hs
        have hzero : i - st.splits.length = 0 := by
          rcases Nat.lt_or_ge (i - st.splits.length) 1 with h1 | h1
          · omega
          · rw [List.getElem?_eq_none] at hs
            · exact absurd hs (by simp)
            · simpa using h1
        rw [hzero] at hs
        simp only [List.getElem?_cons_zero, Option.some.injEq] at hs
        rw [← hs]
        simp only
        omega
    · have hstep : splitStep hav pulses st pr =
        { st with cumulativeDistance :=
            st.cumulativeDistance + hav pr.1.lat pr.1.lng pr.2.lat pr.2.lng } := by
        unfold splitStep
        simp only [hclose, if_false]
      rw [hstep] at hs
      exact h i s hs

/-- Fold invariant of the splits loop: the next boundary is always 1000 times
one past the split count, the cumulative distance has reached 1000 times the
split count, and the cumulative distance is the initial one plus the summed
segment distances of the processed pairs. -/
theorem splits_bound (hav : Hav) (pulses : List Pulse)
    (hnn : ∀ a b c d, 0 ≤ hav a b c d) :
    ∀ (pairs : List (Trackpoint × Trackpoint)) (st : SplitState),
      st.nextKmBoundary = 1000 * ((st.splits.length : ℚ) + 1) →
      1000 * (st.splits.length : ℚ) ≤ st.cumulativeDistance →
      (pairs.foldl (splitStep hav pulses) st).nextKmBoundary
        = 1000 * (((pairs.foldl (splitStep hav pulses) st).splits.length : ℚ) + 1) ∧
      1000 * (((pairs.foldl (splitStep hav pulses) st).splits.length : ℚ))
        ≤ (pairs.foldl (splitStep hav pulses) st).cumulativeDistance ∧
      (pairs.foldl (splitStep hav pulses) st).cumulativeDistance
        = st.cumulativeDistance +
          (pairs.map (fun pr => hav pr.1.lat pr.1.lng pr.2.lat pr.2.lng)).sum := by
  intro pairs
  induction pairs with
  | nil =>
    intro st h1 h2
    refine ⟨h1, h2, by simp⟩
  | cons pr rest ih =>
    intro st h1 h2
    have hseg := hnn pr.1.lat pr.1.lng pr.2.lat pr.2.lng
    by_cases hclose :
        st.cumulativeDistance + hav pr.1.lat pr.1.lng pr.2.lat pr.2.lng
          ≥ st.nextKmBoundary
    · have hstep : splitStep hav pulses st pr =
        { splits := st.splits ++
            [⟨st.splits.length + 1,
              (pr.2.created_at - st.splitStartTime) / 1000,
              averageBpmInWindow pulses st.pulseIdx st.splitStartTime pr.2.created_at⟩]
          cumulativeDistance :=
            st.cumulativeDistance + hav pr.1.lat pr.1.lng pr.2.lat pr.2.lng
          splitStartTime := pr.2.created_at
          nextKmBoundary := st.nextKmBoundary + 1000
          pulseIdx := advancePulseIdx pulses st.pulseIdx pr.2.created_at } := by
        unfold splitStep
        simp only [hclose, if_true]
      have hlen : ((splitStep hav pulses st pr).splits.length : ℚ)
          = (st.splits.length : ℚ) + 1 := by
        rw [hstep]
        simp only [List.length_append, List.length_singleton]
        push_cast
        ring
      have hb : (splitStep hav pulses st pr).nextKmBoundary
          = 1000 * (((splitStep hav pulses st pr).splits.length : ℚ) + 1) := by
        rw [hlen, hstep]
        simp only
        rw [h1]; ring
      have hc : 1000 * (((splitStep hav pulses st pr).splits.length : ℚ))
          ≤ (splitStep hav pulses st pr).cumulativeDistance := by
        rw [hlen, hstep]
        simp only
        rw [h1] at hclose
        linarith
      have := ih (splitStep hav pulses st pr) hb hc
      refine ⟨this.1, this.2.1, ?_⟩
      rw [List.foldl_cons, this.2.2, hstep]
      simp only [List.map_cons, List.sum_cons]
      ring
    · have hstep : splitStep hav pulses st pr =
        { st with cumulativeDistance :=
            st.cumulativeDistance + hav pr.1.lat pr.1.lng pr.2.lat pr.2.lng } := by
        unfold splitStep
        simp only [hclose, if_false]
      have hb : (splitStep hav pulses st pr).nextKmBoundary
          = 1000 * (((splitStep hav pulses st pr).splits.length : ℚ) + 1) := by
        rw [hstep]; exact h1
      have hc : 1000 * (((splitStep hav pulses st pr).splits.length : ℚ))
          ≤ (splitStep hav pulses st pr).cumulativeDistance := by
        rw [hstep]
        simp only
        linarith
      have := ih (splitStep hav pulses st pr) hb hc
      refine ⟨this.1, this.2.1, ?_⟩
      rw [List.foldl_cons, this.2.2, hstep]
      simp only [List.map_cons, List.sum_cons]
      ring

/-- The summed segment distances over the consecutive pairs equal the forward
trackpoint distance. -/
theorem consecutivePairs_sum (hav : Hav) :
    ∀ tps : List Trackpoint,
      ((consecutivePairs tps).map
        (fun pr => hav pr.1.lat pr.1.lng pr.2.lat pr.2.lng)).sum
        = trackpointDistance hav tps
  | [] => by simp [consecutivePairs, trackpointDistance]
  | [a] => by simp [consecutivePairs, trackpointDistance]
  | a :: b :: rest => by
    simp only [consecutivePairs, List.map_cons, List.sum_cons, trackpointDistance]
    rw [consecutivePairs_sum hav (b :: rest)]

/-- C8: per-kilometre splits close on cumulative distance over the given
(filtered) sequence: with a nonnegative distance function the number of
closed splits never exceeds total distance over 1000; splits are numbered
consecutively from 1; and the synthetic 2500 m constant-speed track yields
exactly 2 full splits with their elapsed times and in-window mean BPM, the
trailing 500 m being omitted by the policy of this call site. -/
theorem C8_computeKmSplits (hav : Hav) (tps : List Trackpoint)
    (pulses : List Pulse) :
    ((∀ a b c d, 0 ≤ hav a b c d) →
      1000 * ((computeKmSplits hav tps pulses).length : ℚ)
        ≤ trackpointDistance hav tps) ∧
    (∀ i s, (computeKmSplits hav tps pulses)[i]? = some s → s.km = i + 1) ∧
    computeKmSplits havConst500 track2500 pulses2500
      = [⟨1, 120, some 110⟩, ⟨2, 120, some 130⟩] := by
  refine ⟨?_, ?_, ?_⟩
  · intro hnn
    match tps with
    | [] => simp [computeKmSplits, trackpointDistance]
    | [a] => simp [computeKmSplits, trackpointDistance]
    | first :: b :: rest =>
      have hb := splits_bound hav pulses hnn
        (consecutivePairs (first :: b :: rest))
        ⟨[], 0, first.created_at, 1000, 0⟩ (by norm_num) (by norm_num)
      have hsum := consecutivePairs_sum hav (first :: b :: rest)
      have h2 := hb.2.1
      have h3 := hb.2.2
      rw [hsum] at h3
      unfold computeKmSplits
      simp only at h2 h3 ⊢
      rw [h3] at h2
      linarith
  · intro i s hs
    match tps with
    | [] => simp [computeKmSplits] at hs
    | [a] => simp [computeKmSplits] at hs
    | first :: b :: rest =>
      unfold computeKmSplits at hs
      exact splits_numbering hav pulses (consecutivePairs (first :: b :: rest))
        ⟨[], 0, first.created_at, 1000, 0⟩ (by simp) i s hs
  · norm_num [computeKmSplits, track2500, pulses2500, havConst500,
      consecutivePairs, splitStep, averageBpmInWindow, bpmWindowSum,
      advancePulseIdx, advanceCount]

/-- Witness for C8 at the concrete 2500 m track: two splits never exceed the
2500 m total, and the first split is numbered 1. -/
theorem C8_computeKmSplits_witness :
    1000 * ((computeKmSplits havConst500 track2500 pulses2500).length : ℚ)
      ≤ trackpointDistance havConst500 track2500 ∧
    (∀ s, (computeKmSplits havConst500 track2500 pulses2500)[0]? = some s →
      s.km = 1) := by
  have h := C8_computeKmSplits havConst500 track2500 pulses2500
  exact ⟨h.1 (fun a b c d => by norm_num [havConst500]),
    fun s hs => h.2.1 0 s hs⟩

/-- Counterexample to C2 as stated: startWorkout performs no guard, so two
consecutive start operations on the empty store leave two workouts with
finished_at absent. -/
theorem C2_counterexample : activeCount c2DoubleStart = 2 := by decide

/-- Starting a workout increments the number of active workouts. -/
theorem activeCount_start (now : ℚ) (s : Store) :
    activeCount (startWorkout now s).1 = activeCount s + 1 := by
  unfold activeCount startWorkout
  simp [List.countP_append, List.countP_cons]

/-- Mapping a row-updating function that never clears finished_at cannot
increase the number of active workouts. -/
theorem countP_isNone_map_le (f : Workout → Workout)
    (hf : ∀ w, ((f w).finished_at).isNone = true → (w.finished_at).isNone = true) :
    ∀ l : List Workout,
      (l.map f).countP (fun w => w.finished_at.isNone)
        ≤ l.countP (fun w => w.finished_at.isNone) := by
  intro l
  induction l with
  | nil => simp
  | cons w rest ih =>
    simp only [List.map_cons, List.countP_cons]
    by_cases h : ((f w).finished_at).isNone = true
    · have h2 := hf w h
      simp only [h, h2, if_true]
      omega
    · rw [Bool.not_eq_true] at h
      simp only [h, Bool.false_eq_true, if_false]
      omega

/-- Finishing a workout never increases the number of active workouts. -/
theorem activeCount_finish_le (hav : Hav) (id : ℕ) (now : ℚ) (s : Store) :
    activeCount (finishWorkoutStore hav id now s) ≤ activeCount s := by
  unfold activeCount finishWorkoutStore
  simp only
  apply countP_isNone_map_le
  intro w hw
  by_cases hid : (w.id == id) = true
  · simp [hid] at hw
  · simp [hid] at hw ⊢
    exact hw

/-- Discarding a workout never increases the number of active workouts. -/
theorem activeCount_discard_le (id : ℕ) (s : Store) :
    activeCount (deleteWorkout id s) ≤ activeCount s := by
  unfold activeCount deleteWorkout
  simp only
  exact List.Sublist.countP_le _ (List.filter_sublist _)

/-- C2 amended: startWorkout itself performs no guard (two raw starts violate
the invariant), but under the Idle precondition of the orchestrator - every start
issued while no workout is active - every sequence of start/finish/discard
operations from the empty store keeps at most one workout active at every
observation point. -/
theorem C2_activeWorkout_invariant (hav : Hav) (ops l1 l2 : List WorkoutOp)
    (hsplit : ops = l1 ++ l2)
    (hg : idleGuarded hav emptyStore ops = true) :
    activeCount (runOps hav emptyStore l1) ≤ 1 := by
  subst hsplit
  have main : ∀ (m1 m2 : List WorkoutOp) (s : Store), activeCount s ≤ 1 →
      idleGuarded hav s (m1 ++ m2) = true →
      activeCount (runOps hav s m1) ≤ 1 := by
    intro m1
    induction m1 with
    | nil =>
      intro m2 s h _
      simpa [runOps] using h
    | cons op rest ih =>
      intro m2 s h hg2
      rw [List.cons_append] at hg2
      cases op with
      | start now =>
        simp only [idleGuarded, Bool.and_eq_true, beq_iff_eq] at hg2
        rcases hg2 with ⟨hguard, hrest⟩
        refine ih m2 _ ?_ hrest
        simp [applyOp, activeCount_start, hguard]
      | finish id now =>
        simp only [idleGuarded, Bool.and_eq_true, Bool.true_and] at hg2
        refine ih m2 _ ?_ hg2
        have := activeCount_finish_le hav id now s
        simp only [applyOp]
        omega
      | discard id =>
        simp only [idleGuarded, Bool.and_eq_true, Bool.true_and] at hg2
        refine ih m2 _ ?_ hg2
        have := activeCount_discard_le id s
        simp only [applyOp]
        omega
  exact main l1 l2 emptyStore (by simp [activeCount, emptyStore]) hg

/-- Witness for C2 at a concrete guarded trace: start, finish, start again
after the finish; every prefix keeps at most one active workout. -/
theorem C2_activeWorkout_invariant_witness :
    activeCount (runOps havBig emptyStore
      [WorkoutOp.start 0, WorkoutOp.finish 1 10]) ≤ 1 := by
  exact C2_activeWorkout_invariant havBig
    [WorkoutOp.start 0, WorkoutOp.finish 1 10, WorkoutOp.start 20]
    [WorkoutOp.start 0, WorkoutOp.finish 1 10] [WorkoutOp.start 20]
    rfl (by decide)

/-- Counterexample to C5 as stated: the three DELETE statements run with no
transaction, so a failure of the second statement on a store holding one
workout with one trackpoint and one pulse leaves a state that is neither the
original store nor the fully deleted one - the pulses are gone but the
trackpoint and the workout row remain. -/
theorem C5_counterexample :
    (deleteWorkoutFallible true false true 1 c5Store).2 ≠ c5Store ∧
    (deleteWorkoutFallible true false true 1 c5Store).2 ≠ deleteWorkout 1 c5Store := by
  constructor <;> decide

/-- C5 amended: discard deletes children before the parent in three separate
statements; a completed run removes every row referencing the workout id and
equals the success path; and at every failure point referential integrity is
preserved - if the parent row is gone from the outcome then so are all its
sample rows - but the removal is not atomic: an intermediate failure leaves
earlier deletions committed. -/
theorem C5_deleteWorkout (ok1 ok2 ok3 : Bool) (id : ℕ) (s : Store) :
    ((∀ w ∈ (deleteWorkout id s).workouts, w.id ≠ id) ∧
     (∀ r ∈ (deleteWorkout id s).trackpoints, r.1 ≠ id) ∧
     (∀ r ∈ (deleteWorkout id s).pulses, r.1 ≠ id)) ∧
    deleteWorkoutFallible true true true id s = (true, deleteWorkout id s) ∧
    ((∀ w ∈ (deleteWorkoutFallible ok1 ok2 ok3 id s).2.workouts, w.id ≠ id) →
      (∀ w ∈ s.workouts, w.id ≠ id) ∨
        ((∀ r ∈ (deleteWorkoutFallible ok1 ok2 ok3 id s).2.trackpoints, r.1 ≠ id) ∧
         (∀ r ∈ (deleteWorkoutFallible ok1 ok2 ok3 id s).2.pulses, r.1 ≠ id))) := by
  refine ⟨⟨?_, ?_, ?_⟩, ?_, ?_⟩
  · intro w hw
    simp only [deleteWorkout, List.mem_filter, bne_iff_ne, ne_eq] at hw
    exact hw.2
  · intro r hr
    simp only [deleteWorkout, List.mem_filter, bne_iff_ne, ne_eq] at hr
    exact hr.2
  · intro r hr
    simp only [deleteWorkout, List.mem_filter, bne_iff_ne, ne_eq] at hr
    exact hr.2
  · simp [deleteWorkoutFallible, deleteWorkout]
  · intro hpar
    cases ok1 with
    | false =>
      left
      simpa [deleteWorkoutFallible] using hpar
    | true =>
      cases ok2 with
      | false =>
        left
        simpa [deleteWorkoutFallible] using hpar
      | true =>
        cases ok3 with
        | false =>
          left
          simpa [deleteWorkoutFallible] using hpar
        | true =>
          right
          constructor
          · intro r hr
            simp [deleteWorkoutFallible, List.mem_filter] at hr
            exact hr.2
          · intro r hr
            simp [deleteWorkoutFallible, List.mem_filter] at hr
            exact hr.2

/-- Witness for C5 at concrete inputs: the completed run on the one-workout
store equals the success path, and the integrity implication holds on the
empty store with a mid-sequence failure. -/
theorem C5_deleteWorkout_witness :
    deleteWorkoutFallible true true true 1 c5Store = (true, deleteWorkout 1 c5Store) ∧
    ((∀ w ∈ emptyStore.workouts, w.id ≠ 1) ∨
      ((∀ r ∈ (deleteWorkoutFallible true false true 1 emptyStore).2.trackpoints, r.1 ≠ 1) ∧
       (∀ r ∈ (deleteWorkoutFallible true false true 1 emptyStore).2.pulses, r.1 ≠ 1))) := by
  have h1 := C5_deleteWorkout true true true 1 c5Store
  have h2 := C5_deleteWorkout true false true 1 emptyStore
  refine ⟨h1.2.1, h2.2.2 ?_⟩
  intro w hw
  simp [deleteWorkoutFallible, emptyStore] at hw

/-- C1: evaluation of finishWorkout at the failing input.  The cached
distance sums the raw trackpoints, including the sample with an absent error
estimate, and therefore differs from the haversine sum over the
reliability-filtered sequence that the specification prescribes. -/
theorem C1_finishWorkout_raw_distance :
    (finishWorkout havConst10 200000 c1Tps []).distance = 20 ∧
    trackpointDistance havConst10 (filterReliableTrackpoints havConst10 c1Tps) = 10 ∧
    (finishWorkout havConst10 200000 c1Tps []).distance ≠
      trackpointDistance havConst10 (filterReliableTrackpoints havConst10 c1Tps) := by
  refine ⟨?_, ?_, ?_⟩ <;>
    norm_num [finishWorkout, finishWorkoutDistance, trackpointDistance,
      filterReliableTrackpoints, filterStep, accuracyOk, speedOk, c1Tps,
      havConst10, GPS_ERR_THRESHOLD, MAX_SPEED_MS]
